import Mathlib

/-!
Verification of the model-evaluator API server.

This file gives a shallow embedding of the server's scoring and caching
logic and proves (or refutes) the specification claims about it.

Sources modelled (the three server variants in the repository):
- variant 000: local-CLIP server with centroid cache (functions suffixed 000);
- variant 001: HuggingFace-inference server with per-image vector cache and
  gender-filtered matching (functions suffixed 001);
- variant 002: older rule-only server plus a centroid variant that agrees
  with variant 000 on everything modelled here.

Modelling conventions:
- JS numbers are modelled as exact rationals where the code only uses
  field arithmetic, and as reals where the code calls Math.exp / Math.sqrt;
- network and crypto effects (image embedding, storage listing, sha256)
  are oracles passed in as function arguments;
- JS out-of-range typed-array reads (which would yield NaN) are modelled
  as reading 0; no claim exercises mixed-dimension vectors except through
  explicit uniform-dimension hypotheses.
-/

/- ============== small utilities (clamp, substring search) ============== -/

/-- JS clamp(x, a=0, b=1) = Math.max(a, Math.min(b, x)), over rationals. -/
def qclamp (x a b : ℚ) : ℚ := max a (min b x)

/-- JS clamp with default bounds 0 and 1, over the reals. -/
noncomputable def rclamp (x : ℝ) : ℝ := max 0 (min 1 x)

/-- True when the needle matches the haystack starting at its head. -/
def leadMatch : List Char → List Char → Bool
  | [], _ => true
  | _ :: _, [] => false
  | n :: ns, h :: hs => n == h && leadMatch ns hs

/-- JS String.includes: the needle occurs contiguously in the haystack. -/
def hasSub (needle : List Char) : List Char → Bool
  | [] => leadMatch needle []
  | h :: hs => leadMatch needle (h :: hs) || hasSub needle hs

/- ============== measurement parsing (parseMeas) ============== -/

/-- Value of a digit run, most significant first. -/
def natOfDigits (ds : List Char) : ℕ :=
  ds.foldl (fun a c => a * 10 + (c.toNat - 48)) 0

/-- Numeric value of one regex token: integer digits plus optional fraction. -/
def qOfTok (intDs fracDs : List Char) : ℚ :=
  (natOfDigits intDs : ℚ) + (natOfDigits fracDs : ℚ) / (10 ^ fracDs.length)

/-- All matches of the regex for a decimal number in the character stream,
fuelled by the remaining length (the fuel never runs out on real input). -/
def measTokensGo (fuel : ℕ) (l : List Char) : List ℚ :=
  match fuel, l with
  | 0, _ => []
  | _, [] => []
  | fuel + 1, c :: cs =>
    if c.isDigit then
      let intDs := c :: cs.takeWhile Char.isDigit
      let rest1 := cs.dropWhile Char.isDigit
      match rest1 with
      | '.' :: d :: ds =>
        if d.isDigit then
          let fracDs := d :: ds.takeWhile Char.isDigit
          qOfTok intDs fracDs :: measTokensGo fuel (ds.dropWhile Char.isDigit)
        else
          qOfTok intDs [] :: measTokensGo fuel rest1
      | _ => qOfTok intDs [] :: measTokensGo fuel rest1
    else measTokensGo fuel cs

/-- Bust / waist / hip triple. -/
structure Meas where
  b : ℚ
  w : ℚ
  h : ℚ
deriving DecidableEq

/-- parseMeas: extract at least three numeric tokens, in order; anything
else is treated as absent. -/
def parseMeas (s : Option String) : Option Meas :=
  match s with
  | none => none
  | some str =>
    match measTokensGo str.toList.length str.toList with
    | b :: w :: h :: _ => some ⟨b, w, h⟩
    | _ => none

/- ============== gender inference ============== -/

/-- Lowercase a name character-wise (JS toLowerCase on ASCII names). -/
def lowerChars (s : String) : List Char := s.toList.map Char.toLower

/-- inferGenderFromFolder: case-insensitive substring match, checking
the pattern for female first, then male, else unknown. -/
def inferGenderFromFolder (name : String) : String :=
  let n := lowerChars name
  if hasSub "female".toList n then "female"
  else if hasSub "male".toList n then "male"
  else "unknown"

/-- GEN = (gender || "female").toLowerCase().startsWith("m") ? male : female. -/
def inferGen (gender : Option String) : String :=
  match lowerChars (gender.getD "female") with
  | 'm' :: _ => "male"
  | _ => "female"

/- ============== vector math ============== -/

/-- In-place accumulation loop, for i in 0..v.length-1: c[i] += v[i].
Writes past the end of c are dropped (JS typed-array semantics). -/
def addInto (c v : List ℚ) : List ℚ :=
  List.zipWith (· + ·) c v ++ c.drop v.length

/-- Dimension-wise arithmetic mean of a family of vectors,
written from the specification to compare with the code's centroid. -/
def meanVec (d : ℕ) (vs : List (List ℚ)) : List ℚ :=
  (List.range d).map fun i => ((vs.map fun v => v.getD i 0).sum) / (vs.length : ℚ)

/-- Cosine similarity over the overlapping length, 0 when either
magnitude is zero; accumulators are exact, the square root is real. -/
noncomputable def cosineQ (a b : List ℚ) : ℝ :=
  let L := min a.length b.length
  let dot := ((List.range L).map fun i => a.getD i 0 * b.getD i 0).sum
  let na := ((List.range L).map fun i => a.getD i 0 * a.getD i 0).sum
  let nb := ((List.range L).map fun i => b.getD i 0 * b.getD i 0).sum
  if na ≠ 0 ∧ nb ≠ 0 then (dot : ℝ) / Real.sqrt ((na : ℝ) * (nb : ℝ)) else 0

/- ============== rule scorer ============== -/

/-- Height preference profile: min / target / max. -/
structure HeightPref where
  hmin : ℝ
  htarget : ℝ
  hmax : ℝ

/-- heightScoreFactory: 0 at or below min, 1 at or above max, otherwise a
linear ramp plus a Gaussian bonus of at most 0.15 around the target,
clamped to the unit interval.  A falsy height (0) scores 0. -/
noncomputable def heightScoreR (p : HeightPref) (h : ℝ) : ℝ :=
  if h = 0 then 0
  else if h ≤ p.hmin then 0
  else if p.hmax ≤ h then 1
  else
    let s := (h - p.hmin) / (p.hmax - p.hmin)
    let span := (p.hmax - p.hmin) / 2
    let bonus := Real.exp (-(((h - p.htarget) / (span / 2)) ^ 2)) * 0.15
    rclamp (s + bonus)

/-- A missing height field scores 0 (JS !h check). -/
noncomputable def heightScoreO (p : HeightPref) : Option ℝ → ℝ
  | none => 0
  | some h => heightScoreR p h

/-- Female height preference from the PREFS table. -/
def femaleHeightPref : HeightPref := ⟨172, 177, 182⟩

/-- Male height preference from the PREFS table. -/
def maleHeightPref : HeightPref := ⟨182, 186, 191⟩

/-- Height preference for a resolved gender tag. -/
def prefsHeight (g : String) : HeightPref :=
  if g = "male" then maleHeightPref else femaleHeightPref

/-- One banded measurement: 0 at or outside [min,max], 1 inside the ideal
sub-range, linear ramp in between. -/
structure Band where
  bmin : ℚ
  ideal0 : ℚ
  ideal1 : ℚ
  bmax : ℚ

/-- bandScore from the source, with its exact branch order. -/
def bandScore (v : ℚ) (band : Band) : ℚ :=
  if v ≤ band.bmin ∨ band.bmax ≤ v then 0
  else if band.ideal0 ≤ v ∧ v ≤ band.ideal1 then 1
  else if v < band.ideal0 then (v - band.bmin) / (band.ideal0 - band.bmin)
  else (band.bmax - v) / (band.bmax - band.ideal1)

/-- Male bands from the PREFS table: bust, waist, hip. -/
def maleBandB : Band := ⟨88, 90, 94, 96⟩

/-- Male waist band from the PREFS table. -/
def maleBandW : Band := ⟨71, 73, 77, 82⟩

/-- Male hip band from the PREFS table. -/
def maleBandH : Band := ⟨88, 90, 94, 96⟩

/-- Female measurement targets from the PREFS table. -/
def femaleTarget : Meas := ⟨82, 60, 88⟩

/-- Female measurement tolerances from the PREFS table. -/
def femaleTol : Meas := ⟨6, 4, 6⟩

/-- Measurement score of variant 000: male banded model with waist-weighted
mean, female target-tolerance model with unclamped per-dimension terms. -/
def measScore000 (g : String) (m : Option Meas) : ℚ :=
  match m with
  | none => 0
  | some m =>
    if g = "male" then
      let sB := bandScore m.b maleBandB
      let sW := bandScore m.w maleBandW
      let sH := bandScore m.h maleBandH
      qclamp ((sB + 13 / 10 * sW + sH) / (33 / 10)) 0 1
    else
      let dxB := |m.b - femaleTarget.b| / femaleTol.b
      let dxW := |m.w - femaleTarget.w| / femaleTol.w
      let dxH := |m.h - femaleTarget.h| / femaleTol.h
      qclamp ((1 - dxB + 12 / 10 * (1 - dxW) + (1 - dxH)) / (32 / 10)) 0 1

/-- Measurement score of variants 001 / 002-centroid: per-dimension terms
clamped, and a +0.03 lean bonus for males at or under the ideal ceilings. -/
def measScore001 (g : String) (m : Option Meas) : ℚ :=
  match m with
  | none => 0
  | some m =>
    if g = "male" then
      let sB := bandScore m.b maleBandB
      let sW := bandScore m.w maleBandW
      let sH := bandScore m.h maleBandH
      let base := qclamp ((sB + 13 / 10 * sW + sH) / (33 / 10)) 0 1
      let leanBonus : ℚ :=
        if m.w ≤ maleBandW.ideal1 ∧ m.b ≤ maleBandB.ideal1 ∧ m.h ≤ maleBandH.ideal1
        then 3 / 100 else 0
      qclamp (base + leanBonus) 0 1
    else
      let dxB := |m.b - femaleTarget.b| / femaleTol.b
      let dxW := |m.w - femaleTarget.w| / femaleTol.w
      let dxH := |m.h - femaleTarget.h| / femaleTol.h
      let sB := qclamp (1 - dxB) 0 1
      let sW := qclamp (1 - dxW) 0 1
      let sH := qclamp (1 - dxH) 0 1
      qclamp ((sB + 12 / 10 * sW + sH) / (32 / 10)) 0 1

/-- Ideal range of a gender profile, from the specification: for the banded
(male) profile the inner ideal sub-ranges of all three dimensions; for the
target-tolerance (female) profile the degenerate range at the target. -/
def inIdealRange (g : String) (m : Meas) : Prop :=
  if g = "male" then
    maleBandB.ideal0 ≤ m.b ∧ m.b ≤ maleBandB.ideal1 ∧
    maleBandW.ideal0 ≤ m.w ∧ m.w ≤ maleBandW.ideal1 ∧
    maleBandH.ideal0 ≤ m.h ∧ m.h ≤ maleBandH.ideal1
  else m = femaleTarget

instance (g : String) (m : Meas) : Decidable (inIdealRange g m) := by
  unfold inIdealRange
  infer_instance

/- ============== similarity matcher ============== -/

/-- Output of the face-similarity block: score, matched label, reason. -/
structure FaceOut where
  score : ℝ
  cluster : String
  reason : String

/-- Categorical face reason by fixed thresholds on the normalized score. -/
noncomputable def faceReasonOf (fs : ℝ) : String :=
  if fs ≥ 70 / 100 then "face matches reference look"
  else if fs ≥ 55 / 100 then "some similarity to reference look"
  else "low similarity to reference look"

/-- Reference group of the centroid variants: label, gender tag,
sample count, centroid vector. -/
structure Cluster where
  label : String
  gender : String
  size : ℕ
  centroid : List ℚ
deriving DecidableEq

/-- Reference group of variant 001: label, gender tag and the full list
of successfully embedded reference vectors. -/
structure Cluster001 where
  label : String
  gender : String
  vecs : List (List ℚ)
deriving DecidableEq

/-- Face similarity block of variant 000: embed up to 5 photos, skip
failures, average, take the centroid of strictly greatest cosine
similarity (first seen wins ties), normalize to [0,1]. -/
noncomputable def matcher000 (embed : String → Option (List ℚ))
    (clusters : List Cluster) (photos : List String) : FaceOut :=
  if clusters = [] then ⟨1 / 2, "none", "no reference faces loaded"⟩
  else
    match (photos.take 5).filterMap embed with
    | [] => ⟨1 / 2, "none", "no valid photos to analyze"⟩
    | v0 :: vs =>
      let dim := v0.length
      let sumv := (v0 :: vs).foldl
        (fun acc v => (List.range dim).map fun i => acc.getD i 0 + v.getD i 0)
        (List.replicate dim (0 : ℚ))
      let avg := sumv.map fun x => x / ((v0 :: vs).length : ℚ)
      let best := clusters.foldl
        (fun (acc : ℝ × String) c =>
          let s := cosineQ avg c.centroid
          if acc.1 < s then (s, c.label) else acc)
        (-1, "none")
      let fs := rclamp ((best.1 + 1) / 2)
      ⟨fs, best.2, faceReasonOf fs⟩

/-- Candidate pool of variant 001: when any cached group has a known
gender tag, keep only groups of the submission's gender or unknown. -/
def facePool (clusters : List Cluster001) (gen : String) : List Cluster001 :=
  if clusters.any fun c => !(c.gender == "unknown") then
    clusters.filter fun c => c.gender == gen || c.gender == "unknown"
  else clusters

/-- Face similarity block of variant 001: embed all photos (skipping
failures), take the max cosine similarity of any photo vector against any
reference vector of any pool group; the maxSim ≥ -1 guard is kept exactly
as in the source (it is always true). -/
noncomputable def matcher001 (embed : String → Option (List ℚ))
    (clusters : List Cluster001) (gen : String) (photos : List String) : FaceOut :=
  if clusters = [] then ⟨1 / 2, "none", "no reference faces loaded"⟩
  else
    let pool := facePool clusters gen
    let photoVecs := photos.filterMap embed
    let best := photoVecs.foldl
      (fun acc pv => pool.foldl
        (fun acc2 c => c.vecs.foldl
          (fun (acc3 : ℝ × String) rv =>
            let s := cosineQ pv rv
            if acc3.1 < s then (s, c.label) else acc3)
          acc2)
        acc)
      ((-1 : ℝ), "none")
    if best.1 ≥ -1 then
      let fs := rclamp ((best.1 + 1) / 2)
      ⟨fs, best.2, faceReasonOf fs⟩
    else ⟨1 / 2, "none", "face similarity neutral"⟩

/- ============== embedding provider (variant 001) ============== -/

/-- Shape of a successful backend response: one vector or a
token-by-token matrix. -/
inductive HFData where
  | vec (v : List ℚ)
  | mat (rows : List (List ℚ))
deriving DecidableEq

/-- poolToVector: a matrix is averaged across tokens into one vector of
the first row's width; a vector is returned unchanged. -/
def poolToVector : HFData → List ℚ
  | .vec v => v
  | .mat [] => []
  | .mat (r0 :: rs) =>
    (List.range r0.length).map fun j =>
      ((r0 :: rs).map fun row => row.getD j 0).sum / ((r0 :: rs).length : ℚ)

/-- One backend response: parsed data, or an HTTP error status with body. -/
inductive HFResp where
  | ok (d : HFData)
  | err (status : ℕ) (body : String)
deriving DecidableEq

/-- The statuses the source treats as transient: 500, 502, 503, 504. -/
def transient5xx (s : ℕ) : Bool :=
  s == 500 || s == 502 || s == 503 || s == 504

/-- Outcome of tryEmbed: result, number of attempts made, and the backoff
delays (in ms) taken between attempts. -/
structure TryOut where
  result : Except ℕ (List ℚ)
  attempts : ℕ
  delays : List ℕ

/-- tryEmbed attempt loop: attempt counter and remaining-attempt fuel
(started at the maxAttempts = 3 of the source). -/
def tryEmbedGo (resp : ℕ → HFResp) : ℕ → ℕ → TryOut
  | a, 0 => ⟨.error 0, a - 1, []⟩
  | a, left + 1 =>
    match resp a with
    | .ok d => ⟨.ok (poolToVector d), a, []⟩
    | .err s _ =>
      if transient5xx s && left != 0 then
        let r := tryEmbedGo resp (a + 1) left
        ⟨r.result, r.attempts, 400 * a :: r.delays⟩
      else ⟨.error s, a, []⟩

/-- tryEmbed: up to 3 tries of one backend route, with 400ms × attempt
backoff on transient failures. -/
def tryEmbed (resp : ℕ → HFResp) : TryOut := tryEmbedGo resp 1 3

/-- Backend loop of getEmbedding: try each (model, route) pair in fixed
preference order, keeping the last error; first success wins. -/
def getEmbLoop (lastErr : Option ℕ) : List (ℕ → HFResp) → Except (Option ℕ) (List ℚ)
  | [] => .error lastErr
  | o :: os =>
    match (tryEmbed o).result with
    | .ok v => .ok v
    | .error s => getEmbLoop (some s) os

/-- getEmbedding over the flattened fixed-order backend list;
an empty error means the hf_all_endpoints_failed fallback. -/
def getEmbedding001 (backends : List (ℕ → HFResp)) : Except (Option ℕ) (List ℚ) :=
  getEmbLoop none backends

/- ============== reference cache builder (variant 000) ============== -/

/-- One step of the centroid accumulation: a failed embed is skipped, the
first success allocates the running sum at its own length, later
successes are folded in. -/
def foldEmbed (embed : String → Option (List ℚ))
    (acc : Option (List ℚ) × ℕ) (u : String) : Option (List ℚ) × ℕ :=
  match embed u with
  | none => acc
  | some v =>
    match acc.1 with
    | none => (some (addInto (List.replicate v.length 0) v), acc.2 + 1)
    | some c => (some (addInto c v), acc.2 + 1)

/-- Per-folder pass of loadClusters: empty listings are skipped, the
sample is capped at maxRefs, failures are skipped, and a folder with zero
successful embeds is dropped; otherwise the sum is divided by the count. -/
def processFolder (maxRefs : ℕ) (embed : String → Option (List ℚ))
    (fname : String) (urlsAll : List String) : Option Cluster :=
  if urlsAll.isEmpty then none
  else
    let urls := urlsAll.take maxRefs
    let gender := inferGenderFromFolder fname
    match urls.foldl (foldEmbed embed) (none, 0) with
    | (some c, count) =>
      if count = 0 then none
      else some ⟨fname, gender, count, c.map fun x => x / (count : ℚ)⟩
    | (none, _) => none

/-- loadClusters of variant 000: list each folder's assets (a listing
failure propagates, exactly as the uncaught await in the source), build
its cluster, and collect the kept clusters in order. -/
def loadClusters000 (maxRefs : ℕ) (embed : String → Option (List ℚ))
    (search : String → Except String (List String))
    (folders : List String) : Except String (List Cluster) :=
  folders.foldlM
    (fun (out : List Cluster) fname => do
      let urlsAll ← search fname
      pure (out ++ (processFolder maxRefs embed fname urlsAll).toList))
    []

/- ============== reload concurrency model ============== -/

/-- Environment of a cache build: the discovered folder list, the listing
oracle (assumed successful here) and the embedding oracle. -/
structure BuildEnv where
  folders : List String
  urlsOf : String → List String
  embed : String → Option (List ℚ)
  maxRefs : ℕ

/-- One in-flight build: folders still to process and clusters built so
far (the out array of loadClusters). -/
structure BuildJob where
  todo : List String
  done : List Cluster

/-- Process-wide state: the published cluster cache and the builds
currently in flight. -/
structure RefState where
  clusters : List Cluster
  jobs : List BuildJob

/-- Small-step semantics of the reload endpoint under the event loop:
atomic segments run between await points.  spawn is the handler, which
starts a build unconditionally (the source has no guard); work processes
one folder of one in-flight build; publish is the final synchronous
whole-cache replacement of loadClusters. -/
inductive ReloadStep (env : BuildEnv) : RefState → RefState → Prop
  | spawn (s : RefState) :
      ReloadStep env s ⟨s.clusters, s.jobs ++ [⟨env.folders, []⟩]⟩
  | work (s : RefState) (i : ℕ) (j : BuildJob) (f : String) (rest : List String)
      (hj : s.jobs.get? i = some j) (ht : j.todo = f :: rest) :
      ReloadStep env s
        ⟨s.clusters,
         s.jobs.set i
           ⟨rest, j.done ++ (processFolder env.maxRefs env.embed f (env.urlsOf f)).toList⟩⟩
  | publish (s : RefState) (i : ℕ) (j : BuildJob)
      (hj : s.jobs.get? i = some j) (ht : j.todo = []) :
      ReloadStep env s ⟨j.done, s.jobs.eraseIdx i⟩

/-- Reachability under the reload semantics. -/
def ReloadReach (env : BuildEnv) : RefState → RefState → Prop :=
  Relation.ReflTransGen (ReloadStep env)

/-- The idle initial state: empty cache, no build in flight. -/
def initialRefState : RefState := ⟨[], []⟩

/- ============== evaluation orchestrator (variant 000) ============== -/

/-- Inbound evaluation request body. -/
structure EvalReq where
  photos : List String
  gender : Option String
  height_cm : Option ℝ
  measurements : Option String

/-- Outbound evaluation response fields used by the claims. -/
structure EvalOut where
  decision : String
  confidence : ℝ
  face_similarity : ℝ
  face_cluster : String

/-- Photo-count bonus: clamp((photoCount - 2) * 0.04, 0, 0.12). -/
def photoBoost (n : ℕ) : ℚ := qclamp (((n : ℚ) - 2) * (4 / 100)) 0 (12 / 100)

/-- Deterministic tie-break noise: (first 6 hex digits of
sha256(photos.join("|")) mod 100) / 10000; the hash itself is an oracle. -/
def tinyNoise (sha6 : String → ℕ) (photos : List String) : ℚ :=
  ((sha6 (String.intercalate "|" photos) % 100 : ℕ) : ℚ) / 10000

/-- The confidence blend exactly as the specification states it,
to be compared with what evaluate000 returns. -/
noncomputable def specConfidence (sha6 : String → ℕ) (embed : String → Option (List ℚ))
    (clusters : List Cluster) (req : EvalReq) : ℝ :=
  let g := inferGen req.gender
  rclamp
    ((40 / 100) * (measScore000 g (parseMeas req.measurements) : ℝ)
      + (25 / 100) * heightScoreO (prefsHeight g) req.height_cm
      + (30 / 100) * (matcher000 embed clusters req.photos).score
      + (5 / 100) * (if req.photos ≠ [] then (6 : ℝ) / 10 else 0)
      + (photoBoost req.photos.length : ℝ)
      + (tinyNoise sha6 req.photos : ℝ))

/-- The /evaluate handler of variant 000 after auth: validation of the
photo list, gender resolution, rule scores, face similarity, photo bonus,
tie-break noise, blend, and decision thresholds. -/
noncomputable def evaluate000 (sha6 : String → ℕ) (embed : String → Option (List ℚ))
    (clusters : List Cluster) (req : EvalReq) : Option EvalOut :=
  if req.photos = [] then none
  else
    let g := inferGen req.gender
    let ms := measScore000 g (parseMeas req.measurements)
    let face := matcher000 embed clusters req.photos
    let nPhotos := req.photos.length
    let conf : ℝ :=
      rclamp
        ((40 / 100) * (ms : ℝ)
          + (25 / 100) * heightScoreO (prefsHeight g) req.height_cm
          + (30 / 100) * face.score
          + (5 / 100) * (if nPhotos ≠ 0 then (6 : ℝ) / 10 else 0)
          + (photoBoost nPhotos : ℝ)
          + (tinyNoise sha6 req.photos : ℝ))
    let decision :=
      if conf ≥ 70 / 100 then "proceed"
      else if conf ≥ 45 / 100 then "review"
      else "reject"
    some ⟨decision, conf, face.score, face.cluster⟩


/- ===== evaluation orchestrator (variant 001 and older variant 002) ===== -/

/-- The spec-side blend for variant 001: the same 0.40/0.25/0.30/0.05
weights over that variant's own sub-scores (lean-bonus measurement
scorer, gender-filtered per-vector matcher). -/
noncomputable def specConfidence001 (sha6 : String → ℕ)
    (embed : String → Option (List ℚ)) (clusters : List Cluster001)
    (req : EvalReq) : ℝ :=
  let g := inferGen req.gender
  rclamp
    ((40 / 100) * (measScore001 g (parseMeas req.measurements) : ℝ)
      + (25 / 100) * heightScoreO (prefsHeight g) req.height_cm
      + (30 / 100) * (matcher001 embed clusters g req.photos).score
      + (5 / 100) * (if req.photos ≠ [] then (6 : ℝ) / 10 else 0)
      + (photoBoost req.photos.length : ℝ)
      + (tinyNoise sha6 req.photos : ℝ))

/-- The /evaluate handler of variant 001 after auth: same blend weights
as variant 000 over variant 001's own sub-scores. -/
noncomputable def evaluate001 (sha6 : String → ℕ)
    (embed : String → Option (List ℚ)) (clusters : List Cluster001)
    (req : EvalReq) : Option EvalOut :=
  if req.photos = [] then none
  else
    let g := inferGen req.gender
    let ms := measScore001 g (parseMeas req.measurements)
    let face := matcher001 embed clusters g req.photos
    let nPhotos := req.photos.length
    let conf : ℝ :=
      rclamp
        ((40 / 100) * (ms : ℝ)
          + (25 / 100) * heightScoreO (prefsHeight g) req.height_cm
          + (30 / 100) * face.score
          + (5 / 100) * (if nPhotos ≠ 0 then (6 : ℝ) / 10 else 0)
          + (photoBoost nPhotos : ℝ)
          + (tinyNoise sha6 req.photos : ℝ))
    let decision :=
      if conf ≥ 70 / 100 then "proceed"
      else if conf ≥ 45 / 100 then "review"
      else "reject"
    some ⟨decision, conf, face.score, face.cluster⟩

/-- Output of the older rule-only variant: no face fields at all. -/
structure EvalOut002 where
  decision : String
  confidence : ℝ

/-- Male height preference of the older variant's PREFS table
(max 192, not 191). -/
def maleHeightPref002 : HeightPref := ⟨182, 186, 192⟩

/-- Height preference selection of the older variant. -/
def prefsHeight002 (g : String) : HeightPref :=
  if g = "male" then maleHeightPref002 else femaleHeightPref

/-- Male measurement targets of the older variant's PREFS table. -/
def maleTarget002 : Meas := ⟨96, 76, 94⟩

/-- Male measurement tolerances of the older variant's PREFS table. -/
def maleTol002 : Meas := ⟨8, 6, 8⟩

/-- Measurement score of the older variant: target-tolerance model for
both genders, per-dimension terms clamped, waist-weighted mean. -/
def measScore002older (g : String) (m : Option Meas) : ℚ :=
  match m with
  | none => 0
  | some m =>
    let tgt := if g = "male" then maleTarget002 else femaleTarget
    let tol := if g = "male" then maleTol002 else femaleTol
    let sB := qclamp (1 - |m.b - tgt.b| / tol.b) 0 1
    let sW := qclamp (1 - |m.w - tgt.w| / tol.w) 0 1
    let sH := qclamp (1 - |m.h - tgt.h| / tol.h) 0 1
    qclamp ((sB + 12 / 10 * sW + sH) / (32 / 10)) 0 1

/-- The older variant's blend as its source states it:
0.55·measScore + 0.35·heightScore + 0.10·(0.6 when photos non-empty)
+ photoBonus + tieBreak, clamped; no face-similarity term. -/
noncomputable def specConfidence002older (sha6 : String → ℕ) (req : EvalReq) : ℝ :=
  let g := inferGen req.gender
  rclamp
    ((55 / 100) * (measScore002older g (parseMeas req.measurements) : ℝ)
      + (35 / 100) * heightScoreO (prefsHeight002 g) req.height_cm
      + (10 / 100) * (if req.photos ≠ [] then (6 : ℝ) / 10 else 0)
      + (photoBoost req.photos.length : ℝ)
      + (tinyNoise sha6 req.photos : ℝ))

/-- The /evaluate handler of the older rule-only variant after auth:
0.55/0.35/0.10 weights and no face similarity. -/
noncomputable def evaluate002older (sha6 : String → ℕ) (req : EvalReq) :
    Option EvalOut002 :=
  if req.photos = [] then none
  else
    let g := inferGen req.gender
    let ms := measScore002older g (parseMeas req.measurements)
    let nPhotos := req.photos.length
    let conf : ℝ :=
      rclamp
        ((55 / 100) * (ms : ℝ)
          + (35 / 100) * heightScoreO (prefsHeight002 g) req.height_cm
          + (10 / 100) * (if nPhotos ≠ 0 then (6 : ℝ) / 10 else 0)
          + (photoBoost nPhotos : ℝ)
          + (tinyNoise sha6 req.photos : ℝ))
    let decision :=
      if conf ≥ 70 / 100 then "proceed"
      else if conf ≥ 45 / 100 then "review"
      else "reject"
    some ⟨decision, conf⟩

/- ============== substring characterization (for C5) ============== -/

/-- leadMatch succeeds exactly when the haystack extends the needle. -/
theorem leadMatch_iff (n h : List Char) :
    leadMatch n h = true ↔ ∃ post, h = n ++ post := by
  induction n generalizing h with
  | nil => simp [leadMatch]
  | cons a as ih =>
    cases h with
    | nil =>
      simp only [leadMatch, List.cons_append]
      constructor
      · intro hf
        cases hf
      · rintro ⟨post, hp⟩
        cases hp
    | cons b bs =>
      simp only [leadMatch, Bool.and_eq_true, beq_iff_eq, ih, List.cons_append]
      constructor
      · rintro ⟨hab, post, hp⟩
        exact ⟨post, by rw [hab, hp]⟩
      · rintro ⟨post, hp⟩
        injection hp with h1 h2
        exact ⟨h1.symm, post, h2⟩

/-- hasSub succeeds exactly when the needle occurs contiguously. -/
theorem hasSub_iff (n l : List Char) :
    hasSub n l = true ↔ ∃ pre post, l = pre ++ n ++ post := by
  induction l with
  | nil =>
    simp only [hasSub, leadMatch_iff]
    constructor
    · rintro ⟨post, hp⟩
      exact ⟨[], post, by simpa using hp⟩
    · rintro ⟨pre, post, hp⟩
      rcases pre with _ | ⟨x, xs⟩
      · exact ⟨post, by simpa using hp⟩
      · simp at hp
  | cons c cs ih =>
    simp only [hasSub, Bool.or_eq_true, leadMatch_iff, ih]
    constructor
    · rintro (⟨post, hp⟩ | ⟨pre, post, hp⟩)
      · exact ⟨[], post, by simpa using hp⟩
      · exact ⟨c :: pre, post, by simp [hp]⟩
    · rintro ⟨pre, post, hp⟩
      rcases pre with _ | ⟨x, xs⟩
      · exact Or.inl ⟨post, by simpa using hp⟩
      · simp only [List.cons_append, List.cons.injEq] at hp
        exact Or.inr ⟨xs, post, by simp [hp.2]⟩

/-- Any character list containing the female pattern contains the male one. -/
theorem hasSub_female_imp_male (l : List Char)
    (h : hasSub "female".toList l = true) : hasSub "male".toList l = true := by
  rw [hasSub_iff] at h ⊢
  obtain ⟨pre, post, hp⟩ := h
  exact ⟨pre ++ ['f', 'e'], post, by simpa [List.append_assoc] using hp⟩

/- ============== C5: gender tag inference ============== -/

/-- C5 counterexample: the claim says ambiguous or multi-matching names
default silently to unknown, but a name containing both the female and the
male pattern is tagged female by the first-match-wins branch order. -/
theorem C5_multi_match_counterexample :
    hasSub "female".toList (lowerChars "Reference Female Male") = true
  ∧ hasSub "male".toList (lowerChars "Reference Female Male") = true
  ∧ inferGenderFromFolder "Reference Female Male" = "female"
  ∧ "female" ≠ "unknown" := by decide

/-- C5 (amended): the gender tag comes from a case-insensitive substring
match with fixed precedence — names containing the female pattern are
tagged female, names containing only the male pattern are tagged male,
names matching neither yield unknown; multi-matching names never default
to unknown, because every female match is also a male match and is
resolved as female by precedence. -/
theorem C5_gender_inference (name : String) :
    (hasSub "female".toList (lowerChars name) = true →
      inferGenderFromFolder name = "female")
  ∧ (hasSub "female".toList (lowerChars name) = false →
      hasSub "male".toList (lowerChars name) = true →
      inferGenderFromFolder name = "male")
  ∧ (hasSub "male".toList (lowerChars name) = false →
      inferGenderFromFolder name = "unknown")
  ∧ (hasSub "female".toList (lowerChars name) = true →
      hasSub "male".toList (lowerChars name) = true) := by
  refine ⟨?_, ?_, ?_, hasSub_female_imp_male _⟩
  · intro hf
    unfold inferGenderFromFolder
    simp only [hf, if_true]
  · intro hf hm
    unfold inferGenderFromFolder
    simp only [hf, hm, if_true, Bool.false_eq_true, if_false]
  · intro hm
    have hf : hasSub "female".toList (lowerChars name) = false := by
      by_contra hc
      rw [Bool.not_eq_false] at hc
      rw [hasSub_female_imp_male _ hc] at hm
      cases hm
    unfold inferGenderFromFolder
    simp only [hf, hm, Bool.false_eq_true, if_false]

/-- C5 witness: the amended precedence rules applied at concrete names. -/
theorem C5_gender_inference_witness :
    inferGenderFromFolder "Reference Female Male" = "female"
  ∧ inferGenderFromFolder "Reference male group" = "male"
  ∧ inferGenderFromFolder "Reference X" = "unknown" :=
  ⟨(C5_gender_inference "Reference Female Male").1 (by decide),
   (C5_gender_inference "Reference male group").2.1 (by decide) (by decide),
   (C5_gender_inference "Reference X").2.2.1 (by decide)⟩

/- ============== C9: ideal measurements score exactly 1 ============== -/

/-- bandScore is exactly 1 on the inner ideal sub-range of a
well-formed band. -/
theorem bandScore_ideal (v : ℚ) (band : Band)
    (h1 : band.bmin < band.ideal0) (h2 : band.ideal1 < band.bmax)
    (h3 : band.ideal0 ≤ v) (h4 : v ≤ band.ideal1) : bandScore v band = 1 := by
  unfold bandScore
  rw [if_neg (by push_neg; constructor <;> linarith), if_pos ⟨h3, h4⟩]

/-- C9: for each gender profile, any measurement triple inside that
profile's ideal range scores exactly 1 under both variants of the
measurement scorer (the target-tolerance model's ideal range is its
target point). -/
theorem C9_ideal_range_scores_one (g : String) (m : Meas)
    (hg : g = "male" ∨ g = "female") (h : inIdealRange g m) :
    measScore000 g (some m) = 1 ∧ measScore001 g (some m) = 1 := by
  rcases hg with hg | hg <;> subst hg
  · simp only [inIdealRange, if_pos rfl] at h
    obtain ⟨hb0, hb1, hw0, hw1, hh0, hh1⟩ := h
    have hB : bandScore m.b maleBandB = 1 :=
      bandScore_ideal _ _ (by norm_num [maleBandB]) (by norm_num [maleBandB]) hb0 hb1
    have hW : bandScore m.w maleBandW = 1 :=
      bandScore_ideal _ _ (by norm_num [maleBandW]) (by norm_num [maleBandW]) hw0 hw1
    have hH : bandScore m.h maleBandH = 1 :=
      bandScore_ideal _ _ (by norm_num [maleBandH]) (by norm_num [maleBandH]) hh0 hh1
    have hlean : m.w ≤ maleBandW.ideal1 ∧ m.b ≤ maleBandB.ideal1 ∧ m.h ≤ maleBandH.ideal1 :=
      ⟨hw1, hb1, hh1⟩
    constructor
    · simp only [measScore000, if_true]
      rw [hB, hW, hH]
      norm_num [qclamp, min_def, max_def]
    · simp only [measScore001, if_true]
      rw [hB, hW, hH, if_pos hlean]
      norm_num [qclamp, min_def, max_def]
  · simp only [inIdealRange] at h
    rw [if_neg (by decide)] at h
    subst h
    constructor
    · simp only [measScore000]
      rw [if_neg (show ¬("female" = "male") by decide)]
      norm_num [femaleTarget, femaleTol, qclamp, min_def, max_def]
    · simp only [measScore001]
      rw [if_neg (show ¬("female" = "male") by decide)]
      norm_num [femaleTarget, femaleTol, qclamp, min_def, max_def]

/-- C9 witness: concrete ideal triples for each profile. -/
theorem C9_ideal_range_scores_one_witness :
    (inIdealRange "male" ⟨92, 75, 92⟩ ∧
      measScore000 "male" (some ⟨92, 75, 92⟩) = 1 ∧
      measScore001 "male" (some ⟨92, 75, 92⟩) = 1)
  ∧ (inIdealRange "female" ⟨82, 60, 88⟩ ∧
      measScore000 "female" (some ⟨82, 60, 88⟩) = 1 ∧
      measScore001 "female" (some ⟨82, 60, 88⟩) = 1) :=
  ⟨⟨by decide, C9_ideal_range_scores_one "male" ⟨92, 75, 92⟩ (Or.inl rfl) (by decide)⟩,
   ⟨by decide, C9_ideal_range_scores_one "female" ⟨82, 60, 88⟩ (Or.inr rfl) (by decide)⟩⟩

/- ============== C10: gender-filtered candidate pool ============== -/

/-- C10: whenever at least one cached group carries a known gender tag,
the candidate pool searched by the variant-001 matcher (matcher001 folds
over facePool by definition) is exactly the groups whose tag equals the
submission's inferred gender or is unknown; groups of the other gender
are excluded. -/
theorem C10_pool_excludes_other_gender (clusters : List Cluster001) (gen : String)
    (h : (clusters.any fun c => !(c.gender == "unknown")) = true) :
    facePool clusters gen
      = (clusters.filter fun c => c.gender == gen || c.gender == "unknown")
  ∧ (∀ c ∈ facePool clusters gen, c.gender = gen ∨ c.gender = "unknown")
  ∧ (∀ c ∈ clusters, c.gender ≠ gen → c.gender ≠ "unknown" →
      c ∉ facePool clusters gen) := by
  have hpool : facePool clusters gen
      = (clusters.filter fun c => c.gender == gen || c.gender == "unknown") := by
    unfold facePool
    rw [if_pos h]
  refine ⟨hpool, ?_, ?_⟩
  · intro c hc
    rw [hpool, List.mem_filter] at hc
    have := hc.2
    simp only [Bool.or_eq_true, beq_iff_eq] at this
    exact this
  · intro c _ hgen hunk hc
    rw [hpool, List.mem_filter] at hc
    have := hc.2
    simp only [Bool.or_eq_true, beq_iff_eq] at this
    rcases this with h1 | h1
    · exact hgen h1
    · exact hunk h1

/-- C10 witness: a concrete cache with one male and one female group. -/
theorem C10_pool_excludes_other_gender_witness :
    facePool [⟨"A", "female", [[1]]⟩, ⟨"B", "male", [[1]]⟩] "female"
      = [⟨"A", "female", [[1]]⟩]
  ∧ (⟨"B", "male", [[1]]⟩ : Cluster001)
      ∉ facePool [⟨"A", "female", [[1]]⟩, ⟨"B", "male", [[1]]⟩] "female" := by
  have h := C10_pool_excludes_other_gender
    [⟨"A", "female", [[1]]⟩, ⟨"B", "male", [[1]]⟩] "female" (by decide)
  refine ⟨?_, ?_⟩
  · rw [h.1]
    decide
  · exact h.2.2 ⟨"B", "male", [[1]]⟩ (by decide) (by decide) (by decide)

/- ============== C2: zero successful photo embeddings ============== -/

/-- C2: with a non-empty reference cache and every photo embedding
failing, the variant-001 matcher returns similarity 0 with the
low-similarity reason (its maxSim ≥ -1 guard is vacuously true on an
empty fold), while the variant-000 matcher returns the neutral 0.5 with
the no-valid-photos note that the specification describes; and 0 is not
the neutral 0.5. -/
theorem C2_zero_embeds_divergence :
    matcher001 (fun _ => none) [⟨"Reference Female A", "female", [[1, 0]]⟩]
        "female" ["u1"]
      = ⟨0, "none", "low similarity to reference look"⟩
  ∧ matcher000 (fun _ => none) [⟨"Reference Female A", "female", 1, [1, 0]⟩]
        ["u1"]
      = ⟨1 / 2, "none", "no valid photos to analyze"⟩
  ∧ (0 : ℝ) ≠ 1 / 2 := by
  have hr : rclamp ((-1 + 1) / 2) = 0 := by
    unfold rclamp
    norm_num
  refine ⟨?_, ?_, by norm_num⟩
  · unfold matcher001
    rw [if_neg (by decide)]
    simp only [List.filterMap_cons, List.filterMap_nil, List.foldl_nil]
    rw [if_pos (show ((-1 : ℝ), "none").1 ≥ -1 from le_refl _)]
    show (⟨rclamp ((-1 + 1) / 2), "none", faceReasonOf (rclamp ((-1 + 1) / 2))⟩ : FaceOut) = _
    rw [hr]
    unfold faceReasonOf
    rw [if_neg (by norm_num), if_neg (by norm_num)]
  · unfold matcher000
    rw [if_neg (by decide)]
    simp only [List.take, List.filterMap_cons, List.filterMap_nil]

/- ============== C6: retry budget, backoff, fallback ============== -/

/-- Full behavioural characterization of the tryEmbed attempt loop:
attempt numbers stay within the fuel budget, delays are exactly 400ms
times each retried attempt number, every retried attempt failed with a
transient status, and a failure result reports the final attempt's
status, which is either non-transient (immediate abort) or happened on
the last allowed attempt. -/
theorem tryEmbedGo_spec (resp : ℕ → HFResp) (fuel : ℕ) :
    ∀ a, 1 ≤ fuel →
    (a ≤ (tryEmbedGo resp a fuel).attempts
  ∧ (tryEmbedGo resp a fuel).attempts ≤ a + fuel - 1
  ∧ (tryEmbedGo resp a fuel).delays
      = (List.range ((tryEmbedGo resp a fuel).attempts - a)).map (fun k => 400 * (a + k))
  ∧ (∀ k, a ≤ k → k < (tryEmbedGo resp a fuel).attempts →
      ∃ s b, resp k = .err s b ∧ transient5xx s = true)
  ∧ (∀ s, (tryEmbedGo resp a fuel).result = .error s →
      ∃ b, resp (tryEmbedGo resp a fuel).attempts = .err s b
        ∧ (transient5xx s = false ∨ (tryEmbedGo resp a fuel).attempts = a + fuel - 1))) := by
  induction fuel with
  | zero => intro a h0; omega
  | succ left ih =>
    intro a _
    simp only [tryEmbedGo]
    match hres : resp a with
    | .ok d =>
      simp only
      refine ⟨le_refl a, by omega, by simp, ?_, ?_⟩
      · intro k hk1 hk2
        omega
      · intro s hs
        cases hs
    | .err s b =>
      simp only
      by_cases hcond : (transient5xx s && left != 0) = true
      · rw [if_pos hcond]
        dsimp only
        simp only [Bool.and_eq_true, bne_iff_ne, ne_eq] at hcond
        have hleft : 1 ≤ left := Nat.one_le_iff_ne_zero.mpr hcond.2
        obtain ⟨ih1, ih2, ih3, ih4, ih5⟩ := ih (a + 1) hleft
        refine ⟨by omega, by omega, ?_, ?_, ?_⟩
        · simp only [ih3]
          have hn : (tryEmbedGo resp (a + 1) left).attempts - a
              = ((tryEmbedGo resp (a + 1) left).attempts - (a + 1)) + 1 := by omega
          rw [hn, List.range_succ_eq_map]
          simp only [List.map_cons, List.map_map, Nat.add_zero]
          congr 1
          apply List.map_congr_left
          intro k _
          simp only [Function.comp_apply]
          omega
        · intro k hk1 hk2
          rcases Nat.eq_or_lt_of_le hk1 with hk | hk
          · exact ⟨s, b, hk ▸ hres, hcond.1⟩
          · exact ih4 k hk hk2
        · intro s2 hs2
          obtain ⟨b2, hb2, hd⟩ := ih5 s2 hs2
          rcases hd with hd | hd
          · exact ⟨b2, hb2, Or.inl hd⟩
          · exact ⟨b2, hb2, Or.inr (by omega)⟩
      · rw [if_neg hcond]
        dsimp only
        simp only [Bool.and_eq_true, bne_iff_ne, ne_eq, not_and_or, Bool.not_eq_true,
          not_not] at hcond
        refine ⟨le_refl a, by omega, by simp, ?_, ?_⟩
        · intro k hk1 hk2
          omega
        · intro s2 hs2
          injection hs2 with hss
          subst hss
          rcases hcond with hc | hc
          · exact ⟨b, hres, Or.inl hc⟩
          · exact ⟨b, hres, Or.inr (by omega)⟩

/-- A backend whose embedding succeeds on first success path. -/
lemma getEmbLoop_cons_ok (e0 : Option ℕ) (o : ℕ → HFResp) (os : List (ℕ → HFResp))
    (v : List ℚ) (h : (tryEmbed o).result = .ok v) :
    getEmbLoop e0 (o :: os) = .ok v := by
  simp only [getEmbLoop, h]

/-- A failing backend is skipped, its status becoming the last error. -/
lemma getEmbLoop_cons_err (e0 : Option ℕ) (o : ℕ → HFResp) (os : List (ℕ → HFResp))
    (s : ℕ) (h : (tryEmbed o).result = .error s) :
    getEmbLoop e0 (o :: os) = getEmbLoop (some s) os := by
  simp only [getEmbLoop, h]

/-- C6: for every response oracle, tryEmbed makes between 1 and 3
attempts; the backoff delays are exactly 400ms times each retried
attempt's number; every retried attempt failed with a transient
server-side status (500/502/503/504); a failure result carries the last
attempt's status, which is either non-transient (immediate abort) or fell
on the third and last attempt; and the backend loop of getEmbedding
returns the first backend that succeeds, skipping failed backends in the
fixed preference order. -/
theorem C6_retry_and_fallback (resp o : ℕ → HFResp) (os : List (ℕ → HFResp))
    (e0 : Option ℕ) :
    1 ≤ (tryEmbed resp).attempts
  ∧ (tryEmbed resp).attempts ≤ 3
  ∧ (tryEmbed resp).delays
      = (List.range ((tryEmbed resp).attempts - 1)).map (fun k => 400 * (1 + k))
  ∧ (∀ k, 1 ≤ k → k < (tryEmbed resp).attempts →
      ∃ s b, resp k = .err s b ∧ transient5xx s = true)
  ∧ (∀ s, (tryEmbed resp).result = .error s →
      ∃ b, resp (tryEmbed resp).attempts = .err s b
        ∧ (transient5xx s = false ∨ (tryEmbed resp).attempts = 3))
  ∧ (∀ v, (tryEmbed o).result = .ok v → getEmbLoop e0 (o :: os) = .ok v)
  ∧ (∀ s, (tryEmbed o).result = .error s →
      getEmbLoop e0 (o :: os) = getEmbLoop (some s) os)
  ∧ (∀ (e1 : Option ℕ) (pre : List (ℕ → HFResp)) (v : List ℚ),
      (∀ p ∈ pre, ∃ s, (tryEmbed p).result = .error s) →
      (tryEmbed o).result = .ok v →
      getEmbLoop e1 (pre ++ o :: os) = .ok v) := by
  obtain ⟨h1, h2, h3, h4, h5⟩ := tryEmbedGo_spec resp 3 1 (by norm_num)
  refine ⟨h1, by simpa using h2, h3, h4, ?_, ?_, ?_, ?_⟩
  · intro s hs
    obtain ⟨b, hb, hd⟩ := h5 s hs
    exact ⟨b, hb, by simpa using hd⟩
  · intro v hv
    exact getEmbLoop_cons_ok e0 o os v hv
  · intro s hs
    exact getEmbLoop_cons_err e0 o os s hs
  · intro e1 pre v hfails hok
    induction pre generalizing e1 with
    | nil => simpa using getEmbLoop_cons_ok e1 o os v hok
    | cons p pre ih =>
      obtain ⟨s, hs⟩ := hfails p (List.mem_cons_self p pre)
      rw [List.cons_append, getEmbLoop_cons_err e1 p _ s hs]
      exact ih (some s) (fun q hq => hfails q (List.mem_cons_of_mem p hq))

/-- Oracle failing transiently on the first attempt, then succeeding. -/
def respOkSecond : ℕ → HFResp :=
  fun a => if a = 1 then .err 503 "overloaded" else .ok (.vec [1])

/-- Oracle failing every attempt with an auth error. -/
def respAuthFail : ℕ → HFResp := fun _ => .err 401 "unauthorized"

/-- C6 witness: the characterization applied to concrete oracles — a
transient first failure is retried, an auth-failing backend is skipped
and the next backend's vector is returned. -/
theorem C6_retry_and_fallback_witness :
    (tryEmbed respOkSecond).attempts ≤ 3
  ∧ (∃ s b, respOkSecond 1 = .err s b ∧ transient5xx s = true)
  ∧ getEmbLoop none ([respAuthFail] ++ respOkSecond :: []) = .ok [1] :=
  ⟨(C6_retry_and_fallback respOkSecond respOkSecond [] none).2.1,
   (C6_retry_and_fallback respOkSecond respOkSecond [] none).2.2.2.1 1 le_rfl (by decide),
   (C6_retry_and_fallback respOkSecond respOkSecond [] none).2.2.2.2.2.2.2 none
     [respAuthFail] [1] (fun p hp => by
       rw [List.mem_singleton] at hp
       exact ⟨401, by rw [hp]; rfl⟩) rfl⟩

/- ============== C8: failure containment in the cache build ============== -/

/-- When every listing succeeds, the build's monadic fold is a pure fold
of per-folder results. -/
lemma clustersFoldAux (maxRefs : ℕ) (embed : String → Option (List ℚ))
    (urlsOf : String → List String) :
    ∀ (folders : List String) (init : List Cluster),
      List.foldlM
        (fun (out : List Cluster) fname => do
          let urlsAll ← (Except.ok (urlsOf fname) : Except String (List String))
          pure (out ++ (processFolder maxRefs embed fname urlsAll).toList))
        init folders
      = Except.ok (folders.foldl
          (fun acc f => acc ++ (processFolder maxRefs embed f (urlsOf f)).toList) init) := by
  intro folders
  induction folders with
  | nil => intro init; rfl
  | cons f rest ih =>
    intro init
    rw [List.foldlM_cons]
    exact ih _

/-- loadClusters with an always-succeeding listing oracle returns the
fold of per-folder results. -/
lemma loadClusters000_all_ok (maxRefs : ℕ) (embed : String → Option (List ℚ))
    (urlsOf : String → List String) (folders : List String) :
    loadClusters000 maxRefs embed (fun g => Except.ok (urlsOf g)) folders
      = Except.ok (folders.foldl
          (fun acc f => acc ++ (processFolder maxRefs embed f (urlsOf f)).toList) []) := by
  unfold loadClusters000
  exact clustersFoldAux maxRefs embed urlsOf folders []

/-- A listing failure propagates out of the build fold: the first folder
whose listing errors aborts the fold with that error. -/
lemma loadClusters000_err_aux (maxRefs : ℕ) (embed : String → Option (List ℚ))
    (search : String → Except String (List String)) (f : String) (e : String)
    (hf : search f = .error e) :
    ∀ (pre rest : List String) (init : List Cluster),
      (∀ g ∈ pre, (search g).isOk = true) →
      List.foldlM
        (fun (out : List Cluster) fname => do
          let urlsAll ← search fname
          pure (out ++ (processFolder maxRefs embed fname urlsAll).toList))
        init (pre ++ f :: rest)
      = Except.error e := by
  intro pre
  induction pre with
  | nil =>
    intro rest init _
    rw [List.nil_append, List.foldlM_cons, hf]
    rfl
  | cons g pre ih =>
    intro rest init hpre
    have hg := hpre g (List.mem_cons_self g pre)
    match hsg : search g with
    | .error e2 => rw [hsg] at hg; cases hg
    | .ok us =>
      rw [List.cons_append, List.foldlM_cons, hsg]
      exact ih rest _ (fun q hq => hpre q (List.mem_cons_of_mem g hq))

/-- C8 counterexample: the claim says per-group failures, including a
failure to list a group's member images, are contained; but a listing
failure escalates out of loadClusters, aborting the whole build. -/
theorem C8_listing_failure_counterexample :
    loadClusters000 1 (fun _ => none)
        (fun f => if f = "Reference A" then .error "cloudinary_search_failed:boom"
          else .ok [])
        ["Reference A", "Reference B"]
      = .error "cloudinary_search_failed:boom"
  ∧ ¬ (∀ (maxRefs : ℕ) (embed : String → Option (List ℚ))
        (search : String → Except String (List String)) (folders : List String),
        (loadClusters000 maxRefs embed search folders).isOk = true) := by
  have h : loadClusters000 1 (fun _ => none)
      (fun f => if f = "Reference A" then .error "cloudinary_search_failed:boom"
        else .ok [])
      ["Reference A", "Reference B"]
      = .error "cloudinary_search_failed:boom" := by rfl
  refine ⟨h, fun hall => ?_⟩
  have hbad := hall 1 (fun _ => none)
    (fun f => if f = "Reference A" then .error "cloudinary_search_failed:boom"
      else .ok [])
    ["Reference A", "Reference B"]
  rw [h] at hbad
  exact absurd hbad (by decide)

/-- C8 (amended): per-image embedding failures are contained — with all
listings succeeding the build completes for every embedding oracle — but
a failure to list a group's member images escalates: the first failing
listing aborts the whole build with its error (so the previous cache
snapshot stays published). -/
theorem C8_per_image_contained_listing_escalates (maxRefs : ℕ)
    (embed : String → Option (List ℚ)) (urlsOf : String → List String)
    (folders : List String) (search : String → Except String (List String))
    (pre rest : List String) (f e : String) :
    (loadClusters000 maxRefs embed (fun g => Except.ok (urlsOf g)) folders).isOk = true
  ∧ ((∀ g ∈ pre, (search g).isOk = true) → search f = .error e →
      loadClusters000 maxRefs embed search (pre ++ f :: rest) = .error e) := by
  constructor
  · rw [loadClusters000_all_ok]
    rfl
  · intro hpre hf
    unfold loadClusters000
    exact loadClusters000_err_aux maxRefs embed search f e hf pre rest [] hpre

/-- C8 witness: concrete build runs for both halves of the amended claim. -/
theorem C8_witness :
    (loadClusters000 1 (fun _ => none) (fun _ => Except.ok []) ["Reference A"]).isOk = true
  ∧ loadClusters000 1 (fun _ => none)
      (fun f => if f = "Reference A" then .error "boom" else .ok [])
      (["Reference B"] ++ "Reference A" :: []) = .error "boom" :=
  ⟨(C8_per_image_contained_listing_escalates 1 (fun _ => none) (fun _ => [])
      ["Reference A"] (fun _ => Except.ok []) [] [] "x" "e").1,
   (C8_per_image_contained_listing_escalates 1 (fun _ => none) (fun _ => [])
      ["Reference A"]
      (fun f => if f = "Reference A" then .error "boom" else .ok [])
      ["Reference B"] [] "Reference A" "boom").2 (by decide) (by rfl)⟩

/- ============== C7: centroid is the mean of embedded samples ============== -/

/-- The sampled images of a folder that embed successfully, in order. -/
def successesOf (maxRefs : ℕ) (embed : String → Option (List ℚ))
    (urlsAll : List String) : List (List ℚ) :=
  (urlsAll.take maxRefs).filterMap embed

/-- The accumulation loop never changes the accumulator's length. -/
lemma addInto_length (c v : List ℚ) : (addInto c v).length = c.length := by
  simp only [addInto, List.length_append, List.length_zipWith, List.length_drop]
  omega


/-- Accumulating into a fresh zero vector of matching length is the
identity. -/
lemma addInto_replicate_zero (v : List ℚ) :
    addInto (List.replicate v.length 0) v = v := by
  unfold addInto
  rw [List.drop_eq_nil_of_le (by simp), List.append_nil]
  induction v with
  | nil => rfl
  | cons x xs ih =>
    simp only [List.length_cons, List.replicate_succ, List.zipWith_cons_cons, zero_add,
      List.cons.injEq]
    exact ⟨trivial, ih⟩

/-- Entry-wise reading of one accumulation step at uniform length. -/
lemma addInto_getD (w v : List ℚ) (d : ℕ) (hw : w.length = d) (hv : v.length = d)
    (i : ℕ) : (addInto w v).getD i 0 = w.getD i 0 + v.getD i 0 := by
  by_cases hi : i < d
  · unfold addInto
    rw [List.getD_append _ _ _ _ (by rw [List.length_zipWith, hw, hv]; omega)]
    rw [List.getD_eq_getElem _ _ (by rw [List.length_zipWith, hw, hv]; omega)]
    rw [List.getElem_zipWith]
    rw [List.getD_eq_getElem _ _ (by omega), List.getD_eq_getElem _ _ (by omega)]
  · rw [List.getD_eq_default _ _ (by rw [addInto_length]; omega),
      List.getD_eq_default _ _ (by omega), List.getD_eq_default _ _ (by omega)]
    norm_num

/-- Entry-wise reading of the whole accumulation fold at uniform length. -/
lemma foldl_addInto_getD (d : ℕ) (vs : List (List ℚ)) :
    ∀ w : List ℚ, w.length = d → (∀ v ∈ vs, v.length = d) →
      (vs.foldl addInto w).length = d
    ∧ ∀ i, (vs.foldl addInto w).getD i 0
        = w.getD i 0 + ((vs.map fun v => v.getD i 0).sum) := by
  induction vs with
  | nil =>
    intro w hw _
    refine ⟨hw, fun i => by simp⟩
  | cons v vs ih =>
    intro w hw hvs
    have hv : v.length = d := hvs v (List.mem_cons_self v vs)
    have hlen : (addInto w v).length = d := by rw [addInto_length, hw]
    obtain ⟨ih1, ih2⟩ := ih (addInto w v) hlen
      (fun u hu => hvs u (List.mem_cons_of_mem v hu))
    refine ⟨ih1, fun i => ?_⟩
    rw [List.foldl_cons, ih2 i, addInto_getD w v d hw hv i]
    simp only [List.map_cons, List.sum_cons]
    ring

/-- One step of the accumulation when the embed fails: no change. -/
lemma foldEmbed_step_none (embed : String → Option (List ℚ))
    (acc : Option (List ℚ) × ℕ) (u : String) (hu : embed u = none) :
    foldEmbed embed acc u = acc := by
  unfold foldEmbed
  rw [hu]

/-- One step of the accumulation at the first success: a zero vector of
the new vector's length is allocated and the vector added in. -/
lemma foldEmbed_step_first (embed : String → Option (List ℚ)) (u : String)
    (v : List ℚ) (k : ℕ) (hu : embed u = some v) :
    foldEmbed embed (none, k) u
      = (some (addInto (List.replicate v.length 0) v), k + 1) := by
  unfold foldEmbed
  rw [hu]

/-- One step of the accumulation on a later success: fold in. -/
lemma foldEmbed_step_next (embed : String → Option (List ℚ)) (u : String)
    (v c : List ℚ) (k : ℕ) (hu : embed u = some v) :
    foldEmbed embed (some c, k) u = (some (addInto c v), k + 1) := by
  unfold foldEmbed
  rw [hu]

/-- The accumulation over a url list from a seeded state. -/
lemma foldEmbed_from_some (embed : String → Option (List ℚ)) :
    ∀ (urls : List String) (c : List ℚ) (k : ℕ),
      urls.foldl (foldEmbed embed) (some c, k)
        = (some ((urls.filterMap embed).foldl addInto c),
            k + (urls.filterMap embed).length) := by
  intro urls
  induction urls with
  | nil => intro c k; simp
  | cons u urls ih =>
    intro c k
    rw [List.foldl_cons]
    match hu : embed u with
    | none =>
      rw [foldEmbed_step_none embed _ u hu, ih, List.filterMap_cons_none hu]
    | some v =>
      rw [foldEmbed_step_next embed u v c k hu, ih, List.filterMap_cons_some hu]
      simp only [List.foldl_cons, List.length_cons, Prod.mk.injEq]
      exact ⟨trivial, by omega⟩

/-- The full accumulation from the empty state, characterized by the
successful embeddings only. -/
lemma foldEmbed_from_none (embed : String → Option (List ℚ)) (urls : List String) :
    urls.foldl (foldEmbed embed) (none, 0)
      = (match urls.filterMap embed with
          | [] => ((none : Option (List ℚ)), 0)
          | v :: vs => (some (vs.foldl addInto v), vs.length + 1)) := by
  induction urls with
  | nil => rfl
  | cons u urls ih =>
    rw [List.foldl_cons]
    match hu : embed u with
    | none =>
      rw [foldEmbed_step_none embed _ u hu, ih, List.filterMap_cons_none hu]
    | some v =>
      rw [foldEmbed_step_first embed u v 0 hu,
        foldEmbed_from_some embed urls (addInto (List.replicate v.length 0) v) 1,
        addInto_replicate_zero v, List.filterMap_cons_some hu]
      simp only [Prod.mk.injEq]
      exact ⟨trivial, by omega⟩

/-- C7: a cluster published by a completed build has sampleCount at
least 1 and equal to the number of successfully embedded samples of its
folder; when those samples share a dimension, the stored centroid is
exactly their dimension-wise arithmetic mean; folders with zero
successful embeddings are dropped; and the published cache is exactly
the fold of the kept per-folder results. -/
theorem C7_cache_centroid_invariant (maxRefs : ℕ) (embed : String → Option (List ℚ))
    (fname : String) (urlsAll : List String) (cl : Cluster) (d : ℕ)
    (urlsOf : String → List String) (folders : List String) :
    (processFolder maxRefs embed fname urlsAll = some cl →
        1 ≤ cl.size
      ∧ cl.size = (successesOf maxRefs embed urlsAll).length
      ∧ ((∀ v ∈ successesOf maxRefs embed urlsAll, v.length = d) →
          cl.centroid = meanVec d (successesOf maxRefs embed urlsAll)))
  ∧ (successesOf maxRefs embed urlsAll = [] →
      processFolder maxRefs embed fname urlsAll = none)
  ∧ loadClusters000 maxRefs embed (fun g => Except.ok (urlsOf g)) folders
      = Except.ok (folders.foldl
          (fun acc f => acc ++ (processFolder maxRefs embed f (urlsOf f)).toList) []) := by
  have hfold := foldEmbed_from_none embed (urlsAll.take maxRefs)
  refine ⟨?_, ?_, loadClusters000_all_ok maxRefs embed urlsOf folders⟩
  · intro hsome
    simp only [processFolder] at hsome
    by_cases hemp : urlsAll.isEmpty = true
    · rw [if_pos hemp] at hsome
      cases hsome
    · rw [if_neg hemp] at hsome
      cases hss : (urlsAll.take maxRefs).filterMap embed with
      | nil =>
        rw [hss] at hfold
        rw [hfold] at hsome
        cases hsome
      | cons v vs =>
        rw [hss] at hfold
        rw [hfold] at hsome
        dsimp only at hsome
        rw [if_neg (Nat.succ_ne_zero vs.length)] at hsome
        injection hsome with hcl
        subst hcl
        unfold successesOf
        rw [hss]
        dsimp only
        refine ⟨by omega, by simp, ?_⟩
        intro hd
        have hv : v.length = d := hd v (List.mem_cons_self v vs)
        obtain ⟨hlen, hget⟩ := foldl_addInto_getD d vs v hv
          (fun u hu => hd u (List.mem_cons_of_mem v hu))
        apply List.ext_getElem
        · simp [meanVec, hlen]
        · intro i hi1 hi2
          rw [List.getElem_map]
          unfold meanVec
          rw [List.getElem_map, List.getElem_range]
          have hi : i < d := by
            rw [List.length_map, hlen] at hi1
            exact hi1
          have hnum : (vs.foldl addInto v)[i] = (vs.foldl addInto v).getD i 0 := by
            rw [List.getD_eq_getElem _ _ (by rw [hlen]; exact hi)]
          rw [hnum, hget i]
          simp only [List.map_cons, List.sum_cons, List.length_cons]
  · intro hss
    simp only [processFolder]
    by_cases hemp : urlsAll.isEmpty = true
    · rw [if_pos hemp]
    · rw [if_neg hemp]
      rw [successesOf] at hss
      rw [hss] at hfold
      rw [hfold]


/-- C7 witness: one folder with one successful and one failed embedding;
the cluster is kept with sampleCount 1 and mean centroid. -/
theorem C7_cache_centroid_invariant_witness :
    1 ≤ (⟨"Reference Female X", "female", 1, [1, 2]⟩ : Cluster).size
  ∧ (⟨"Reference Female X", "female", 1, [1, 2]⟩ : Cluster).size
      = (successesOf 2 (fun u => if u = "a" then some [1, 2] else none)
          ["a", "b"]).length
  ∧ (⟨"Reference Female X", "female", 1, [1, 2]⟩ : Cluster).centroid
      = meanVec 2 (successesOf 2 (fun u => if u = "a" then some [1, 2] else none)
          ["a", "b"]) := by
  have hproc : processFolder 2 (fun u => if u = "a" then some [1, 2] else none)
      "Reference Female X" ["a", "b"]
      = some ⟨"Reference Female X", "female", 1, [1, 2]⟩ := by
    have hfold := foldEmbed_from_none
      (fun u => if u = "a" then some [1, 2] else none) (List.take 2 ["a", "b"])
    have hfm : (List.take 2 ["a", "b"]).filterMap
        (fun u => if u = "a" then some ([1, 2] : List ℚ) else none) = [[1, 2]] := by
      decide
    rw [hfm] at hfold
    simp only [processFolder]
    rw [if_neg (by decide), hfold]
    dsimp only
    rw [if_neg (by decide)]
    rw [show inferGenderFromFolder "Reference Female X" = "female" from by decide]
    norm_num
  obtain ⟨h1, h2, h3⟩ :=
    (C7_cache_centroid_invariant 2 (fun u => if u = "a" then some [1, 2] else none)
      "Reference Female X" ["a", "b"] ⟨"Reference Female X", "female", 1, [1, 2]⟩ 2
      (fun _ => []) []).1 hproc
  refine ⟨h1, h2, h3 ?_⟩
  intro v hv
  have : successesOf 2 (fun u => if u = "a" then some ([1, 2] : List ℚ) else none)
      ["a", "b"] = [[1, 2]] := by decide
  rw [this] at hv
  rw [List.mem_singleton] at hv
  rw [hv]
  rfl

/- ============== C3: no build mutual exclusion ============== -/

/-- A trivial build environment for concrete runs. -/
def trivialBuildEnv : BuildEnv := ⟨[], fun _ => [], fun _ => none, 0⟩

/-- C3 counterexample: the claim says at most one build runs at any
time, but the reload handler has no guard, so a second reload spawned
mid-build yields a reachable state with two builds in flight. -/
theorem C3_single_build_counterexample :
    ¬ (∀ (env : BuildEnv) (s : RefState),
        ReloadReach env initialRefState s → s.jobs.length ≤ 1) := by
  intro hall
  have st1 : ReloadStep trivialBuildEnv initialRefState ⟨[], [⟨[], []⟩]⟩ :=
    ReloadStep.spawn initialRefState
  have st2 : ReloadStep trivialBuildEnv ⟨[], [⟨[], []⟩]⟩
      ⟨[], [⟨[], []⟩, ⟨[], []⟩]⟩ :=
    ReloadStep.spawn ⟨[], [⟨[], []⟩]⟩
  have hreach : ReloadReach trivialBuildEnv initialRefState
      ⟨[], [⟨[], []⟩, ⟨[], []⟩]⟩ :=
    Relation.ReflTransGen.tail (Relation.ReflTransGen.tail Relation.ReflTransGen.refl st1) st2
  have := hall trivialBuildEnv ⟨[], [⟨[], []⟩, ⟨[], []⟩]⟩ hreach
  simp at this

/-- C3 (amended): the reload endpoint neither rejects nor queues while a
build is in flight — its spawn transition is enabled in every state, so
a state with two concurrent in-flight builds is reachable; each
completed build still publishes its full output in one atomic
whole-cache replacement step. -/
theorem C3_unguarded_reload (env : BuildEnv) :
    (∀ s : RefState, ReloadStep env s ⟨s.clusters, s.jobs ++ [⟨env.folders, []⟩]⟩)
  ∧ (∃ s : RefState, ReloadReach env initialRefState s ∧ 2 ≤ s.jobs.length)
  ∧ (∀ (s : RefState) (i : ℕ) (j : BuildJob),
      s.jobs.get? i = some j → j.todo = [] →
      ReloadStep env s ⟨j.done, s.jobs.eraseIdx i⟩) := by
  refine ⟨fun s => ReloadStep.spawn s, ?_,
    fun s i j hj ht => ReloadStep.publish s i j hj ht⟩
  refine ⟨⟨[], [⟨env.folders, []⟩, ⟨env.folders, []⟩]⟩, ?_, by simp⟩
  have st1 : ReloadStep env initialRefState ⟨[], [⟨env.folders, []⟩]⟩ :=
    ReloadStep.spawn initialRefState
  have st2 : ReloadStep env ⟨[], [⟨env.folders, []⟩]⟩
      ⟨[], [⟨env.folders, []⟩, ⟨env.folders, []⟩]⟩ :=
    ReloadStep.spawn ⟨[], [⟨env.folders, []⟩]⟩
  exact Relation.ReflTransGen.tail
    (Relation.ReflTransGen.tail Relation.ReflTransGen.refl st1) st2

/-- C3 witness: spawn is enabled in the idle state, and a finished job
publishes in one step. -/
theorem C3_unguarded_reload_witness :
    ReloadStep trivialBuildEnv initialRefState ⟨[], [⟨[], []⟩]⟩
  ∧ ReloadStep trivialBuildEnv ⟨[], [⟨[], []⟩]⟩ ⟨[], []⟩ :=
  ⟨(C3_unguarded_reload trivialBuildEnv).1 initialRefState,
   (C3_unguarded_reload trivialBuildEnv).2.2 ⟨[], [⟨[], []⟩]⟩ 0 ⟨[], []⟩ rfl rfl⟩

/- ============== C1: the confidence blend ============== -/

/-- C1 counterexample: at one concrete submission (one photo, no
gender, height or measurements, zero hash), the older rule-only variant
of evaluate returns confidence 3/50 from its 0.55/0.35/0.10 blend with
no face term, while the claimed 0.40/0.25/0.30/0.05 blend — also what
the variant-000 evaluate returns at the same submission with an empty
cache — is 9/50; the claim is false at its cited older variant. -/
theorem C1_blend_counterexample :
    Option.map EvalOut002.confidence
      (evaluate002older (fun _ => 0) ⟨["u"], none, none, none⟩) = some (3 / 50)
  ∧ Option.map EvalOut.confidence
      (evaluate000 (fun _ => 0) (fun _ => none) [] ⟨["u"], none, none, none⟩)
      = some (9 / 50)
  ∧ specConfidence (fun _ => 0) (fun _ => none) [] ⟨["u"], none, none, none⟩ = 9 / 50
  ∧ (3 / 50 : ℝ) ≠ 9 / 50 := by
  have hb : photoBoost 1 = 0 := by
    norm_num [photoBoost, qclamp, min_def, max_def]
  have hn : tinyNoise (fun _ => 0) ["u"] = 0 := by
    norm_num [tinyNoise]
  have hms2 : measScore002older (inferGen none) (parseMeas none) = 0 := rfl
  have hms0 : measScore000 (inferGen none) (parseMeas none) = 0 := rfl
  have hface : matcher000 (fun _ => none) [] ["u"]
      = ⟨1 / 2, "none", "no reference faces loaded"⟩ := by
    unfold matcher000
    rw [if_pos rfl]
  refine ⟨?_, ?_, ?_, by norm_num⟩
  · unfold evaluate002older
    rw [if_neg (by decide)]
    simp only [Option.map_some']
    dsimp only
    congr 1
    rw [show (["u"] : List String).length = 1 from rfl]
    rw [hb, hn]
    norm_num [heightScoreO, rclamp, min_def, max_def, hms2]
  · unfold evaluate000
    rw [if_neg (by decide)]
    simp only [Option.map_some']
    dsimp only
    congr 1
    rw [show (["u"] : List String).length = 1 from rfl]
    rw [hb, hn, hface]
    norm_num [heightScoreO, rclamp, min_def, max_def, hms0]
  · unfold specConfidence
    dsimp only
    rw [show (["u"] : List String).length = 1 from rfl]
    rw [hb, hn, hface, if_pos (by decide : (["u"] : List String) ≠ [])]
    norm_num [heightScoreO, rclamp, min_def, max_def, hms0]

/-- C1 (amended): for every evaluated submission, the current variants
(000 and 001) return confidence equal to 0.40·measurementScore
+ 0.25·heightScore + 0.30·faceSimilarity + 0.05·(0.6 when the photo
list is non-empty) + photoBonus + tieBreak, clamped to [0,1], each over
its own sub-scores; the older rule-only variant instead returns
0.55·measurementScore + 0.35·heightScore + 0.10·(0.6 when photos are
non-empty) + photoBonus + tieBreak, clamped, with no face-similarity
term. -/
theorem C1_confidence_blend_by_variant (sha6 : String → ℕ)
    (embed embed1 : String → Option (List ℚ)) (clusters : List Cluster)
    (clusters1 : List Cluster001) (req : EvalReq) (h : req.photos ≠ []) :
    Option.map EvalOut.confidence (evaluate000 sha6 embed clusters req)
      = some (specConfidence sha6 embed clusters req)
  ∧ Option.map EvalOut.confidence (evaluate001 sha6 embed1 clusters1 req)
      = some (specConfidence001 sha6 embed1 clusters1 req)
  ∧ Option.map EvalOut002.confidence (evaluate002older sha6 req)
      = some (specConfidence002older sha6 req) := by
  have hn : req.photos.length ≠ 0 := by simpa using h
  refine ⟨?_, ?_, ?_⟩
  · unfold evaluate000 specConfidence
    rw [if_neg h]
    dsimp only
    rw [if_pos hn, if_pos h]
    rfl
  · unfold evaluate001 specConfidence001
    rw [if_neg h]
    dsimp only
    rw [if_pos hn, if_pos h]
    rfl
  · unfold evaluate002older specConfidence002older
    rw [if_neg h]
    dsimp only
    rw [if_pos hn, if_pos h]
    rfl

/-- C1 witness: the per-variant blends at a concrete request. -/
theorem C1_confidence_blend_by_variant_witness :
    Option.map EvalOut.confidence
      (evaluate000 (fun _ => 0) (fun _ => none) [] ⟨["u"], none, none, none⟩)
    = some (specConfidence (fun _ => 0) (fun _ => none) [] ⟨["u"], none, none, none⟩)
  ∧ Option.map EvalOut.confidence
      (evaluate001 (fun _ => 0) (fun _ => none) [] ⟨["u"], none, none, none⟩)
    = some (specConfidence001 (fun _ => 0) (fun _ => none) [] ⟨["u"], none, none, none⟩)
  ∧ Option.map EvalOut002.confidence
      (evaluate002older (fun _ => 0) ⟨["u"], none, none, none⟩)
    = some (specConfidence002older (fun _ => 0) ⟨["u"], none, none, none⟩) :=
  C1_confidence_blend_by_variant (fun _ => 0) (fun _ => none) (fun _ => none) [] []
    ⟨["u"], none, none, none⟩ (by decide)

/- ============== C4: height score shape ============== -/

/-- The Gaussian kernel of the height bonus. -/
noncomputable def gaussK (x : ℝ) : ℝ := Real.exp (-(x ^ 2))

/-- Derivative of the Gaussian kernel. -/
lemma gaussK_hasDerivAt (x : ℝ) :
    HasDerivAt gaussK (Real.exp (-(x ^ 2)) * (-(2 * x))) x := by
  have h1 : HasDerivAt (fun y : ℝ => -(y ^ 2)) (-(2 * x)) x := by
    have h2 := (hasDerivAt_pow 2 x).neg
    simpa using h2
  simpa [gaussK] using h1.exp

/-- The Gaussian kernel's derivative never exceeds 1 in absolute value. -/
lemma gaussK_deriv_bound (x : ℝ) : ‖deriv gaussK x‖ ≤ 1 := by
  rw [(gaussK_hasDerivAt x).deriv]
  rw [Real.norm_eq_abs, abs_mul, abs_neg]
  rw [abs_of_pos (Real.exp_pos _)]
  have h2 : |2 * x| ≤ Real.exp (x ^ 2) := by
    have ha : |2 * x| ≤ 1 + x ^ 2 := by
      rw [abs_mul, abs_two]
      nlinarith [sq_nonneg (|x| - 1), sq_abs x, abs_nonneg x]
    have hb := Real.add_one_le_exp (x ^ 2)
    linarith
  calc Real.exp (-(x ^ 2)) * |2 * x|
      ≤ Real.exp (-(x ^ 2)) * Real.exp (x ^ 2) :=
        mul_le_mul_of_nonneg_left h2 (Real.exp_pos _).le
    _ = 1 := by rw [← Real.exp_add]; norm_num

/-- The Gaussian kernel is 1-Lipschitz. -/
lemma gaussK_lipschitz (a b : ℝ) : |gaussK a - gaussK b| ≤ |a - b| := by
  have h := Convex.norm_image_sub_le_of_norm_deriv_le (𝕜 := ℝ) (f := gaussK)
    (s := Set.univ) (fun x _ => (gaussK_hasDerivAt x).differentiableAt)
    (fun x _ => gaussK_deriv_bound x) convex_univ (Set.mem_univ b) (Set.mem_univ a)
  simpa [Real.norm_eq_abs] using h

/-- The clamp is monotone and stays in the unit interval. -/
lemma rclamp_nonneg (x : ℝ) : 0 ≤ rclamp x := le_max_left 0 _

/-- The clamp never exceeds 1. -/
lemma rclamp_le_one (x : ℝ) : rclamp x ≤ 1 :=
  max_le (by norm_num) (min_le_left 1 x)

/-- The clamp preserves order. -/
lemma rclamp_mono {a b : ℝ} (hab : a ≤ b) : rclamp a ≤ rclamp b :=
  max_le_max le_rfl (min_le_min le_rfl hab)

/-- At or below the profile minimum, the height score is 0. -/
lemma heightScoreR_of_le (p : HeightPref) (h : ℝ) (hle : h ≤ p.hmin) :
    heightScoreR p h = 0 := by
  unfold heightScoreR
  by_cases h0 : h = 0
  · rw [if_pos h0]
  · rw [if_neg h0, if_pos hle]

/-- At or above the profile maximum, the height score is 1. -/
lemma heightScoreR_of_ge (p : HeightPref) (h : ℝ) (h0 : 0 ≤ p.hmin)
    (hmm : p.hmin < p.hmax) (hge : p.hmax ≤ h) : heightScoreR p h = 1 := by
  have hne : h ≠ 0 := by intro he; subst he; linarith
  have hnle : ¬ h ≤ p.hmin := by intro hc; linarith
  unfold heightScoreR
  rw [if_neg hne, if_neg hnle, if_pos hge]

/-- Between the bounds, the height score is the clamped ramp plus
Gaussian bonus. -/
lemma heightScoreR_of_between (p : HeightPref) (h : ℝ) (hne : h ≠ 0)
    (h1 : ¬ h ≤ p.hmin) (h2 : ¬ p.hmax ≤ h) :
    heightScoreR p h
      = rclamp ((h - p.hmin) / (p.hmax - p.hmin)
          + gaussK ((h - p.htarget) / ((p.hmax - p.hmin) / 2 / 2)) * 0.15) := by
  unfold heightScoreR gaussK
  rw [if_neg hne, if_neg h1, if_neg h2]

/-- The height score stays in the unit interval. -/
lemma heightScoreR_mem_unit (p : HeightPref) (h : ℝ) :
    0 ≤ heightScoreR p h ∧ heightScoreR p h ≤ 1 := by
  unfold heightScoreR
  repeat' split
  all_goals constructor
  all_goals first
    | exact rclamp_nonneg _
    | exact rclamp_le_one _
    | norm_num

/-- The height score is monotone non-decreasing: the linear ramp's slope
dominates the Gaussian bonus's slope (0.15 times a 1-Lipschitz kernel at
scale a quarter of the span beats the ramp only by factor 0.6). -/
lemma heightScoreR_mono (p : HeightPref) (h0 : 0 ≤ p.hmin) (hmm : p.hmin < p.hmax) :
    Monotone (heightScoreR p) := by
  intro x y hxy
  by_cases hyl : y ≤ p.hmin
  · rw [heightScoreR_of_le p y hyl, heightScoreR_of_le p x (le_trans hxy hyl)]
  · by_cases hyg : p.hmax ≤ y
    · rw [heightScoreR_of_ge p y h0 hmm hyg]
      exact (heightScoreR_mem_unit p x).2
    · have hy0 : y ≠ 0 := by
        intro he
        subst he
        exact hyl (by linarith)
      rcases le_or_lt x p.hmin with hxl | hxl
      · rw [heightScoreR_of_le p x hxl]
        exact (heightScoreR_mem_unit p y).1
      · have hx0 : x ≠ 0 := by
          intro he
          subst he
          linarith
        have hxg : ¬ p.hmax ≤ x := by
          intro hc
          exact hyg (le_trans hc hxy)
        rw [heightScoreR_of_between p x hx0 (not_le.mpr hxl) hxg,
          heightScoreR_of_between p y hy0 hyl hyg]
        apply rclamp_mono
        have hd : (0 : ℝ) < p.hmax - p.hmin := by linarith
        have hcpos : (0 : ℝ) < (p.hmax - p.hmin) / 2 / 2 :=
          div_pos (div_pos hd two_pos) two_pos
        have hlip := gaussK_lipschitz ((x - p.htarget) / ((p.hmax - p.hmin) / 2 / 2))
          ((y - p.htarget) / ((p.hmax - p.hmin) / 2 / 2))
        have habs : |(x - p.htarget) / ((p.hmax - p.hmin) / 2 / 2)
            - (y - p.htarget) / ((p.hmax - p.hmin) / 2 / 2)|
            = (y - x) / ((p.hmax - p.hmin) / 2 / 2) := by
          rw [div_sub_div_same]
          rw [abs_div, abs_of_pos hcpos, abs_of_nonpos (by linarith : x - p.htarget - (y - p.htarget) ≤ 0)]
          ring_nf
        have hkey : gaussK ((x - p.htarget) / ((p.hmax - p.hmin) / 2 / 2))
            - gaussK ((y - p.htarget) / ((p.hmax - p.hmin) / 2 / 2))
            ≤ (y - x) / ((p.hmax - p.hmin) / 2 / 2) := by
          calc gaussK ((x - p.htarget) / ((p.hmax - p.hmin) / 2 / 2))
              - gaussK ((y - p.htarget) / ((p.hmax - p.hmin) / 2 / 2))
              ≤ |gaussK ((x - p.htarget) / ((p.hmax - p.hmin) / 2 / 2))
                - gaussK ((y - p.htarget) / ((p.hmax - p.hmin) / 2 / 2))| := le_abs_self _
            _ ≤ _ := hlip
            _ = (y - x) / ((p.hmax - p.hmin) / 2 / 2) := habs
        have hc4 : (y - x) / ((p.hmax - p.hmin) / 2 / 2)
            = 4 * (y - x) / (p.hmax - p.hmin) := by
          field_simp
          ring
        rw [hc4] at hkey
        have hyx : (0 : ℝ) ≤ y - x := by linarith
        have hquot : (0 : ℝ) ≤ (y - x) / (p.hmax - p.hmin) := div_nonneg hyx hd.le
        have hlin : (y - p.hmin) / (p.hmax - p.hmin) - (x - p.hmin) / (p.hmax - p.hmin)
            = (y - x) / (p.hmax - p.hmin) := by
          rw [div_sub_div_same]
          ring_nf
        have h4q : 4 * (y - x) / (p.hmax - p.hmin) = 4 * ((y - x) / (p.hmax - p.hmin)) := by
          ring
        rw [h4q] at hkey
        nlinarith [hkey, hquot, hlin]

/-- Just above the profile minimum the female height score is bounded
below by the Gaussian bonus tail. -/
lemma heightScoreR_female_lower (x : ℝ) (h1 : 172 < x) (h2 : x ≤ 173) :
    Real.exp (-4) * 0.15 ≤ heightScoreR femaleHeightPref x := by
  have hx0 : x ≠ 0 := by intro he; subst he; linarith
  have hle : ¬ x ≤ femaleHeightPref.hmin := by
    simp only [femaleHeightPref]
    linarith
  have hge : ¬ femaleHeightPref.hmax ≤ x := by
    simp only [femaleHeightPref]
    linarith
  rw [heightScoreR_of_between _ _ hx0 hle hge]
  simp only [femaleHeightPref]
  have hu2 : ((x - 177) / (((182 : ℝ) - 172) / 2 / 2)) ^ 2 ≤ 4 := by
    have h5 : ((182 : ℝ) - 172) / 2 / 2 = 5 / 2 := by norm_num
    rw [h5, div_pow]
    rw [div_le_iff₀ (by norm_num : (0 : ℝ) < (5 / 2) ^ 2)]
    nlinarith
  have hg : Real.exp (-4) ≤ gaussK ((x - 177) / (((182 : ℝ) - 172) / 2 / 2)) := by
    unfold gaussK
    rw [Real.exp_le_exp]
    linarith
  have hlin : (0 : ℝ) ≤ (x - 172) / ((182 : ℝ) - 172) := by
    apply div_nonneg <;> linarith
  have hd1 : Real.exp (-4) * 0.15 ≤ 1 := by
    nlinarith [Real.exp_pos (-4), Real.exp_le_exp.mpr (show (-4 : ℝ) ≤ 0 by norm_num),
      Real.exp_zero]
  unfold rclamp
  refine le_trans (le_min hd1 ?_) (le_max_right 0 _)
  nlinarith [hg, hlin, Real.exp_pos (-4)]

/-- The female height score jumps at the profile minimum: continuity
fails there because the Gaussian bonus tail is strictly positive just
above the minimum while the value at the minimum is 0. -/
lemma heightScoreR_female_not_continuousAt :
    ¬ ContinuousAt (heightScoreR femaleHeightPref) 172 := by
  intro hcont
  have h172 : heightScoreR femaleHeightPref 172 = 0 :=
    heightScoreR_of_le _ _ (by simp [femaleHeightPref])
  have htend : Filter.Tendsto (heightScoreR femaleHeightPref)
      (nhdsWithin 172 (Set.Ioi 172)) (nhds 0) := by
    have ht := hcont.tendsto
    rw [h172] at ht
    exact ht.mono_left nhdsWithin_le_nhds
  have hev : ∀ᶠ x in nhdsWithin (172 : ℝ) (Set.Ioi 172),
      Real.exp (-4) * 0.15 ≤ heightScoreR femaleHeightPref x := by
    have hmem : Set.Ioc (172 : ℝ) 173 ∈ nhdsWithin (172 : ℝ) (Set.Ioi 172) :=
      Ioc_mem_nhdsWithin_Ioi ⟨le_refl _, by norm_num⟩
    exact Filter.eventually_of_mem hmem
      (fun x hx => heightScoreR_female_lower x hx.1 hx.2)
  have hle := ge_of_tendsto htend hev
  nlinarith [Real.exp_pos (-4), hle]

/-- C4 counterexample: the claim asserts the height score is continuous
across the full domain; it is not — it jumps upward at the profile
minimum. -/
theorem C4_continuity_counterexample :
    ¬ Continuous (heightScoreR femaleHeightPref) := fun hc =>
  heightScoreR_female_not_continuousAt (hc.continuousAt)

/-- C4 (amended): the height score is 0 at or below the profile minimum,
1 at or above the profile maximum, and monotone non-decreasing across
the full domain; but it is not continuous at the profile minimum, where
the Gaussian bonus tail produces an upward jump. -/
theorem C4_height_shape (p : HeightPref) (h0 : 0 ≤ p.hmin) (hmm : p.hmin < p.hmax) :
    (∀ h, h ≤ p.hmin → heightScoreR p h = 0)
  ∧ (∀ h, p.hmax ≤ h → heightScoreR p h = 1)
  ∧ Monotone (heightScoreR p)
  ∧ ¬ ContinuousAt (heightScoreR femaleHeightPref) 172 :=
  ⟨fun h hle => heightScoreR_of_le p h hle,
   fun h hge => heightScoreR_of_ge p h h0 hmm hge,
   heightScoreR_mono p h0 hmm,
   heightScoreR_female_not_continuousAt⟩

/-- C4 witness: the amended shape at the two concrete profiles. -/
theorem C4_height_shape_witness :
    heightScoreR femaleHeightPref 170 = 0
  ∧ heightScoreR maleHeightPref 195 = 1
  ∧ Monotone (heightScoreR femaleHeightPref) :=
  ⟨(C4_height_shape femaleHeightPref (by norm_num [femaleHeightPref])
      (by norm_num [femaleHeightPref])).1 170 (by norm_num [femaleHeightPref]),
   (C4_height_shape maleHeightPref (by norm_num [maleHeightPref])
      (by norm_num [maleHeightPref])).2.1 195 (by norm_num [maleHeightPref]),
   (C4_height_shape femaleHeightPref (by norm_num [femaleHeightPref])
      (by norm_num [femaleHeightPref])).2.2.1⟩
